import Mathlib

/-!
Verification of the Veloren server core against its specification.

The Rust modules under verification are shallowly embedded below:
* `src/common/src/sys/phys.rs` — physics integrator (constants, `resolve_forces`,
  the per-entity step of `Sys::run`);
* `src/common/src/sys/combat.rs` — melee combat resolver;
* `src/server/src/lib.rs` — chunk-generation pipeline (`generate_chunk`, the
  per-tick drain), the client-session state machine (`handle_new_messages`) and
  the replication step (`sync_clients`).

Machine floats (`f32`) are embedded as rationals; the external square-root based
primitives (`magnitude`, `normalized`, `angle_between`), which the specification
lists as external math primitives, are passed as explicit function parameters so
that every theorem quantifies over them.
-/

namespace Veloren

/-- 3D vector (the embedding of `vek::Vec3<f32>`). -/
structure V3 where
  x : ℚ
  y : ℚ
  z : ℚ
deriving DecidableEq, Repr

/-- 2D vector (the embedding of `vek::Vec2<f32>`). -/
structure V2 where
  x : ℚ
  y : ℚ
deriving DecidableEq, Repr

def V3.add (a b : V3) : V3 := ⟨a.x + b.x, a.y + b.y, a.z + b.z⟩

def V3.sub (a b : V3) : V3 := ⟨a.x - b.x, a.y - b.y, a.z - b.z⟩

/-- Scalar multiplication of a vector. -/
def V3.smul (q : ℚ) (a : V3) : V3 := ⟨q * a.x, q * a.y, q * a.z⟩

instance : Add V3 := ⟨V3.add⟩

instance : Sub V3 := ⟨V3.sub⟩

/-- `magnitude_squared` of a 3D vector. -/
def magSq (v : V3) : ℚ := v.x ^ 2 + v.y ^ 2 + v.z ^ 2

/-- `distance_squared` between two points. -/
def distSq (a b : V3) : ℚ := magSq (b - a)

/-! ### Physics constants, from `src/common/src/sys/phys.rs` lines 13–26. -/

def GRAV_ACCEL : ℚ := 981 / 100 * 4

def FRIC_GROUND : ℚ := 15 / 100

def FRIC_AIR : ℚ := 15 / 1000

def HUMANOID_ACCEL : ℚ := 70

def HUMANOID_SPEED : ℚ := 120

def HUMANOID_AIR_ACCEL : ℚ := 10

def HUMANOID_AIR_SPEED : ℚ := 100

def HUMANOID_JUMP_ACCEL : ℚ := 16

def ROLL_ACCEL : ℚ := 160

def ROLL_SPEED : ℚ := 550

def GLIDE_ACCEL : ℚ := 15

def GLIDE_SPEED : ℚ := 45

def GLIDE_ANTIGRAV : ℚ := 981 / 100 * (395 / 100)

/-- `get_grav_accel` (phys.rs:65): gravity is 0 when grounded, else downward. -/
def get_grav_accel (on_ground : Bool) : ℚ :=
  if on_ground then 0 else -GRAV_ACCEL

/-- `get_friction_factor` (phys.rs:74). -/
def get_friction_factor (on_ground : Bool) : ℚ :=
  50 * (if on_ground then FRIC_GROUND else FRIC_AIR)

/-- `resolve_forces` (phys.rs:50): gravity minus a quadratic drag term; drag is
horizontal-only while grounded, all-axis while airborne. -/
def resolve_forces (lin_vel : V3) (on_ground : Bool) : V3 :=
  let gravity : V3 := ⟨0, 0, get_grav_accel on_ground⟩
  let speed_squared := magSq lin_vel
  let friction0 : V3 := if on_ground then ⟨1, 1, 0⟩ else ⟨1, 1, 1⟩
  let friction := V3.smul (1 / 2 * get_friction_factor on_ground * speed_squared) friction0
  gravity - friction

/-- The `Velocity` component: linear velocity plus the cached acceleration of
the previous step (phys.rs `Vel`). -/
structure Vel where
  linear : V3
  accel : V3
deriving DecidableEq, Repr

/-- The per-mode acceleration table of the horizontal drive (phys.rs:137–148).
`mag3` is the external `magnitude` primitive used by the guards. -/
def moveAccel (mag3 : V3 → ℚ) (onGround gliding rolling : Bool) (v : V3) : ℚ :=
  if onGround && !gliding && !rolling && decide (mag3 v < HUMANOID_SPEED) then HUMANOID_ACCEL
  else if !onGround && gliding && !rolling && decide (mag3 v < GLIDE_SPEED) then GLIDE_ACCEL
  else if !onGround && !gliding && !rolling && decide (mag3 v < HUMANOID_AIR_SPEED) then
    HUMANOID_AIR_ACCEL
  else if onGround && !gliding && rolling && decide (mag3 v < ROLL_SPEED) then ROLL_ACCEL
  else 0

/-- The horizontal drive (phys.rs:134–149): add `dt * move_dir * accel` to the
horizontal components of the velocity; `z` is untouched. -/
def moveDirStep (mag3 : V3 → ℚ) (dt : ℚ) (onGround gliding rolling : Bool)
    (dir : V2) (v : V3) : V3 :=
  let a := moveAccel mag3 onGround gliding rolling v
  ⟨v.x + dt * dir.x * a, v.y + dt * dir.y * a, v.z⟩

/-- Vertical-velocity clamp after integration (phys.rs:200–204). -/
def clampZ (v : V3) : V3 :=
  if v.z > HUMANOID_AIR_SPEED then ⟨v.x, v.y, HUMANOID_AIR_SPEED⟩
  else if v.z < -HUMANOID_AIR_SPEED then ⟨v.x, v.y, -HUMANOID_AIR_SPEED⟩
  else v

/-- The velocity produced by the velocity-Verlet update before the vertical
clamp (phys.rs:183–199): half-step with the cached acceleration, then the
average of cached and freshly resolved acceleration. -/
def integrateRaw (dt : ℚ) (onGround : Bool) (vel : Vel) : V3 :=
  let half_dt := 1 / 2 * dt
  let half_step_vel := vel.linear + V3.smul half_dt vel.accel
  let new_accel := resolve_forces vel.linear onGround
  half_step_vel + V3.smul half_dt (vel.accel + new_accel)

/-- The full integration substep (phys.rs:183–206): position update by the
half-step velocity, clamped new velocity, and the freshly resolved acceleration
cached for the next tick. -/
def integrate (dt : ℚ) (onGround : Bool) (pos : V3) (vel : Vel) : V3 × Vel :=
  let half_dt := 1 / 2 * dt
  let half_step_vel := vel.linear + V3.smul half_dt vel.accel
  let pos2 := pos + V3.smul dt half_step_vel
  let new_accel := resolve_forces vel.linear onGround
  (pos2, { linear := clampZ (integrateRaw dt onGround vel), accel := new_accel })

/-- Terrain sample: `sample(voxel) -> Option<is_solid>`, with absence treated
as non-solid (phys.rs `terrain.get(...).map(|vox| !vox.is_empty()).unwrap_or(false)`). -/
def terrSolid (terrain : Int → Int → Int → Option Bool) (p : V3) : Bool :=
  (terrain p.x.floor p.y.floor p.z.floor).getD false

/-- The anti-penetration loop (phys.rs:227–237), with its iteration budget as
fuel: while the voxel at the position is solid, nudge up and zero the vertical
velocity. -/
def collideLoop (terrain : Int → Int → Int → Option Bool) :
    Nat → V3 → V3 → V3 × V3
  | 0, pos, lin => (pos, lin)
  | Nat.succ fuel, pos, lin =>
    if terrSolid terrain pos then
      collideLoop terrain fuel ⟨pos.x, pos.y, pos.z + 1 / 400⟩ ⟨lin.x, lin.y, 0⟩
    else (pos, lin)

/-- Iteration budget of the anti-penetration loop: the number of naturals `i`
with `i < 6000 * dt` (phys.rs:232). -/
def collFuel (dt : ℚ) : Nat := (6000 * dt).ceil.toNat

/-- The per-entity physics state read and written by the integrator system. -/
structure PhysEntity where
  pos : V3
  vel : Vel
  ori : V3
  onGround : Bool
  moveDir : Option V2
  gliding : Bool
  jumping : Bool
  rolling : Option ℚ
  isDead : Bool
deriving Repr

/-- One per-entity step of the physics system `Sys::run` (phys.rs:113–238):
skip the dead, horizontal drive, jump, glide, roll bookkeeping, velocity-Verlet
integration with vertical clamp, orientation from velocity, ground detection,
then the anti-penetration loop.  `mag3`, `mag2` and `norm3` are the external
3D magnitude, 2D magnitude and normalization primitives. -/
def phys_step (mag3 : V3 → ℚ) (mag2 : ℚ → ℚ → ℚ) (norm3 : V3 → V3)
    (terrain : Int → Int → Int → Option Bool) (dt : ℚ) (e : PhysEntity) : PhysEntity :=
  if e.isDead then e else
  let v1 : V3 :=
    match e.moveDir with
    | some d => moveDirStep mag3 dt e.onGround e.gliding e.rolling.isSome d e.vel.linear
    | none => e.vel.linear
  let v2 : V3 := if e.jumping then ⟨v1.x, v1.y, HUMANOID_JUMP_ACCEL⟩ else v1
  let jumping' : Bool := if e.jumping then false else e.jumping
  let v3 : V3 :=
    if e.gliding && decide (mag3 v2 < GLIDE_SPEED) && decide (v2.z < 0) then
      let lift := GLIDE_ANTIGRAV + v2.z ^ 2 * (2 / 10)
      ⟨v2.x, v2.y, v2.z + dt * lift * min (mag2 (v2.x * (15 / 100)) (v2.y * (15 / 100))) 1⟩
    else v2
  let rolling' : Option ℚ :=
    match e.rolling with
    | some t => if t + dt > 55 / 100 then none else some (t + dt)
    | none => none
  let pv := integrate dt e.onGround e.pos { linear := v3, accel := e.vel.accel }
  let ori' : V3 :=
    if decide (magSq (pv.2.linear) ≠ 0) then
      let n := norm3 pv.2.linear
      ⟨n.x, n.y, 0⟩
    else e.ori
  let onGround' : Bool :=
    terrSolid terrain ⟨(pv.1).x, (pv.1).y, (pv.1).z - 1 / 10⟩ && decide (pv.2.linear.z ≤ 0)
  let pl := collideLoop terrain (collFuel dt) pv.1 pv.2.linear
  { e with
    pos := pl.1
    vel := { linear := pl.2, accel := pv.2.accel }
    ori := ori'
    onGround := onGround'
    jumping := jumping'
    rolling := rolling' }

/-- Concrete entity at rest used for the C3 counterexample and witness. -/
def restEnt : PhysEntity :=
  { pos := ⟨0, 0, 0⟩
    vel := { linear := ⟨0, 0, 0⟩, accel := ⟨0, 0, 0⟩ }
    ori := ⟨0, 1, 0⟩
    onGround := false
    moveDir := none
    gliding := false
    jumping := false
    rolling := none
    isDead := false }

/-! ### Combat resolver, from `src/common/src/sys/combat.rs`. -/

/-- Cause of a health change (`comp::HealthSource`); the combat system only
constructs the `Attack` variant, carrying the stable `Uid` of the attacker. -/
inductive HealthSource
  | Attack (attacker : Nat)
  | Unknown
deriving DecidableEq, Repr

/-- Modelled from the spec: `Stats` holds health — current, max and a
last-change record `(amount, elapsed_time, source)` — plus the alive/dead
flag.  The component definition itself is outside the four source modules. -/
structure Hp where
  current : Int
  maximum : Int
  lastChange : Option (Int × ℚ × HealthSource)
deriving DecidableEq, Repr

/-- Modelled from the spec: `hp.change_by(amount, cause)` adds the (signed)
amount to the current health and records it as the last change. -/
def Hp.change_by (h : Hp) (amount : Int) (cause : HealthSource) : Hp :=
  { h with current := h.current + amount, lastChange := some (amount, 0, cause) }

/-- The `Stats` component as used by the combat system. -/
structure Stats where
  hp : Hp
  is_dead : Bool
deriving DecidableEq, Repr

/-- The `Attacking` component: elapsed swing time and the applied flag
marking whether the hit scan already ran for this swing. -/
structure Attacking where
  time : ℚ
  applied : Bool
deriving DecidableEq, Repr

/-- Modelled from the spec: `Attacking::start()` (used by the `Attack` message
handler in lib.rs:505) begins a fresh swing — zero elapsed time, hit scan not
yet applied. -/
def Attacking.start : Attacking := ⟨0, false⟩

/-- An entity as seen by the combat system: an identifier plus the optional
components the two joins of `Sys::run` read and write. -/
structure CEntity where
  eid : Nat
  uid : Option Nat
  pos : Option V3
  ori : Option V3
  vel : Option Vel
  attacking : Option Attacking
  stats : Option Stats
  forceUpdate : Bool
deriving DecidableEq, Repr

/-- The hit check of combat.rs:48–51: a target entity (which must carry
`Pos`, `Vel` and `Stats` to be in the inner join) is hit when it is a
different entity, not dead, within squared distance 50 and within 70 degrees
of the attacker facing.  `angleDeg` is the external
`angle_between(..).to_degrees()` primitive. -/
def hitTest (angleDeg : V3 → V3 → ℚ) (aeid : Nat) (apos aori : V3)
    (b : CEntity) : Bool :=
  match b.pos, b.vel, b.stats with
  | some pb, some _, some sb =>
    decide (aeid ≠ b.eid) && !sb.is_dead && decide (distSq apos pb < 50)
      && decide (angleDeg aori (pb - apos) < 70)
  | _, _, _ => false

/-- The knockback of combat.rs:55–56: push away from the attacker scaled by
10, then hard-set the vertical velocity to 15.  `norm3` is the external
`normalized()` primitive. -/
def knockback (norm3 : V3 → V3) (apos pb : V3) (v : Vel) : Vel :=
  let n := norm3 (pb - apos)
  { v with linear := ⟨v.linear.x + n.x * 10, v.linear.y + n.y * 10, 15⟩ }

/-- The effect of a hit on a target (combat.rs:53–57): 10 damage attributed to
the attacker `Uid`, knockback, and a `ForceUpdate` marker. -/
def applyHit (norm3 : V3 → V3) (auid : Nat) (apos : V3) (b : CEntity) : CEntity :=
  match b.pos, b.vel, b.stats with
  | some pb, some vb, some sb =>
    { b with
      stats := some { sb with hp := sb.hp.change_by (-10) (HealthSource.Attack auid) }
      vel := some (knockback norm3 apos pb vb)
      forceUpdate := true }
  | _, _, _ => b

/-- One hit scan (the inner join of combat.rs:44–59): every entity is tested
and, when hit, receives damage, knockback and forced replication. -/
def attackScan (angleDeg : V3 → V3 → ℚ) (norm3 : V3 → V3)
    (aeid auid : Nat) (apos aori : V3) (es : List CEntity) : List CEntity :=
  es.map fun b => if hitTest angleDeg aeid apos aori b then applyHit norm3 auid apos b else b

/-- Per-tick update of one `Attacking` component (combat.rs:60–68): the
applied flag is set, the component is removed when the stored elapsed time
exceeds 0.5, otherwise the elapsed time advances by `dt`; the returned flag
records whether the hit scan ran this tick (it runs exactly when the applied
flag was still clear). -/
def attackingTick (dt : ℚ) (att : Attacking) : Option Attacking × Bool :=
  (if att.time > 1 / 2 then none else some ⟨att.time + dt, true⟩, !att.applied)

/-- Processing of the attacker at index `i` (one iteration of the outer join
of combat.rs:39–74): if the entity carries `Uid`, `Pos`, `Ori` and `Attacking`
and the hit scan has not yet applied, scan all entities; then advance or
remove its `Attacking` component. -/
def combatTickOne (angleDeg : V3 → V3 → ℚ) (norm3 : V3 → V3) (dt : ℚ)
    (es : List CEntity) (i : Nat) : List CEntity :=
  match es.get? i with
  | none => es
  | some a =>
    match a.uid, a.pos, a.ori, a.attacking with
    | some uid, some apos, some aori, some att =>
      let es1 := if !att.applied then attackScan angleDeg norm3 a.eid uid apos aori es else es
      es1.set i { a with attacking := (attackingTick dt att).1 }
    | _, _, _, _ => es

/-- The whole combat system tick (`Sys::run`): process every attacker in entity
order. -/
def combatRun (angleDeg : V3 → V3 → ℚ) (norm3 : V3 → V3) (dt : ℚ)
    (es : List CEntity) : List CEntity :=
  (List.range es.length).foldl (fun acc i => combatTickOne angleDeg norm3 dt acc i) es

/-- Concrete attacker used by the C4 witness. -/
def watk : CEntity :=
  { eid := 0, uid := some 7, pos := some ⟨0, 0, 0⟩, ori := some ⟨0, 1, 0⟩
    vel := some { linear := ⟨0, 0, 0⟩, accel := ⟨0, 0, 0⟩ }
    attacking := some Attacking.start
    stats := some { hp := ⟨100, 100, none⟩, is_dead := false }
    forceUpdate := false }

/-- Concrete target 5 units ahead of the attacker, used by the C4 witness. -/
def wtgt : CEntity :=
  { eid := 1, uid := some 8, pos := some ⟨0, 5, 0⟩, ori := some ⟨0, 1, 0⟩
    vel := some { linear := ⟨0, 0, 0⟩, accel := ⟨0, 0, 0⟩ }
    attacking := none
    stats := some { hp := ⟨100, 100, none⟩, is_dead := false }
    forceUpdate := false }

/-- A whole swing of one attacker across consecutive ticks: iterate
`attackingTick` over the list of tick durations, returning the surviving
component and the number of ticks on which the hit scan ran. -/
def swingRun : List ℚ → Attacking → Option Attacking × Nat
  | [], att => (some att, 0)
  | dt :: rest, att =>
    let step := attackingTick dt att
    let n := cond step.2 1 0
    match step.1 with
    | none => (none, n)
    | some att2 =>
      let r := swingRun rest att2
      (r.1, n + r.2)

/-! ### World streaming manager, from `src/server/src/lib.rs` (`generate_chunk`
at lines 768–776, the per-tick drain at lines 290–322, eviction at 324–353). -/

/-- The chunk-pipeline state: the dedup `pending_chunks` set, the jobs
dispatched to the worker pool and not yet finished, the finished results
sitting in the completion channel in FIFO order, and the chunk map. -/
structure ChunkMgr (K C : Type) where
  pending : List K
  inflight : List K
  completed : List (K × C)
  chunks : List (K × C)

/-- `Server::generate_chunk` (lib.rs:768): `pending_chunks.insert(key)` — if
the key was already pending this is a no-op, otherwise the key becomes pending
and exactly one generation job is handed to the worker pool. -/
def generate_chunk {K C : Type} [DecidableEq K] (key : K) (s : ChunkMgr K C) :
    ChunkMgr K C :=
  if key ∈ s.pending then s
  else { s with pending := key :: s.pending, inflight := s.inflight ++ [key] }

/-- A worker finishing the job for `key`: the pure generator result is sent on
the completion channel (lib.rs:772–774). -/
def workerFinish {K C : Type} [DecidableEq K] (gen : K → C) (key : K)
    (s : ChunkMgr K C) : ChunkMgr K C :=
  if key ∈ s.inflight then
    { s with inflight := s.inflight.erase key, completed := s.completed ++ [(key, gen key)] }
  else s

/-- Map insert with replacement (`state.insert_chunk`). -/
def insertChunk {K C : Type} [DecidableEq K] (key : K) (c : C)
    (l : List (K × C)) : List (K × C) :=
  (key, c) :: l.filter fun p => decide (p.1 ≠ key)

/-- The per-tick drain (lib.rs:292–322): one non-blocking `try_recv` — at most
one completed pair is taken even when more are queued; its key leaves the
pending set and the chunk enters the map. -/
def drain_completed {K C : Type} [DecidableEq K] (s : ChunkMgr K C) : ChunkMgr K C :=
  match s.completed with
  | [] => s
  | (key, c) :: rest =>
    { s with
      completed := rest
      pending := s.pending.erase key
      chunks := insertChunk key c s.chunks }

/-- Eviction of one chunk (`state.remove_chunk`, lib.rs:351–353): only the
materialized chunk is dropped; the pending set is untouched. -/
def remove_chunk {K C : Type} [DecidableEq K] (key : K) (s : ChunkMgr K C) :
    ChunkMgr K C :=
  { s with chunks := s.chunks.filter fun p => decide (p.1 ≠ key) }

/-- Number of generation jobs in flight for a key: dispatched to the pool or
finished but not yet drained. -/
def jobCount {K C : Type} [DecidableEq K] (key : K) (s : ChunkMgr K C) : Nat :=
  s.inflight.count key + (s.completed.map Prod.fst).count key

/-- The pipeline invariant: the pending set has no duplicates, every key has
at most one job in flight, and a key with a job in flight is pending. -/
def ChunkInv {K C : Type} [DecidableEq K] (s : ChunkMgr K C) : Prop :=
  s.pending.Nodup ∧ ∀ k, jobCount k s ≤ 1 ∧ (1 ≤ jobCount k s → k ∈ s.pending)

/-- Association-list lookup in the chunk map. -/
def lookupChunk {K C : Type} [DecidableEq K] (key : K) (l : List (K × C)) :
    Option C :=
  (l.find? fun p => decide (p.1 = key)).map Prod.snd

/-! ### Client session state machine, from `src/server/src/lib.rs`
(`handle_new_messages`, lines 405–631). -/

/-- `ClientState` (the per-connection protocol state). -/
inductive ClientState
  | Connected
  | Registered
  | Spectator
  | Character
  | Dead
  | Pending
deriving DecidableEq, Repr

/-- `RequestStateError`: the typed rejections of an illegal request. -/
inductive RequestStateError
  | Already
  | Impossible
  | WrongMessage
deriving DecidableEq, Repr

/-- Outcome of handling one `ClientMsg::RequestState` message. -/
inductive ReqOutcome
  | disconnect
  | errorState (e : RequestStateError)
  | allowState (s : ClientState)
  | ignore
deriving DecidableEq, Repr

/-- The `RequestState` arm of `handle_new_messages` (lib.rs:424–458),
translated branch for branch.  Note that in the `Spectator` arm the source
matches on `requested_state` again (lib.rs:439) — not on
`client.client_state` as the sibling `Registered` arm does — and the inner
match here mirrors that faithfully. -/
def handleRequestState (current requested : ClientState) : ReqOutcome :=
  match requested with
  | .Connected => .disconnect
  | .Registered =>
    match current with
    | .Connected => .errorState .WrongMessage
    | .Registered => .errorState .Already
    | .Spectator | .Character | .Dead => .allowState .Registered
    | .Pending => .ignore
  | .Spectator =>
    match requested with
    | .Connected => .errorState .Impossible
    | .Spectator => .errorState .Already
    | .Registered | .Character | .Dead => .allowState .Spectator
    | .Pending => .ignore
  | .Character => .errorState .WrongMessage
  | .Dead => .errorState .Impossible
  | .Pending => .ignore

/-- The inbound client messages, reduced to their effect on the session:
`Other` stands for the gameplay messages (`Attack`, `Respawn`, `Chat`,
animation and physics reports, chunk requests, `SetViewDistance`) which never
change the protocol state and never disconnect. -/
inductive ClientMsg
  | RequestState (s : ClientState)
  | Register
  | CharacterMsg
  | Ping
  | Pong
  | Disconnect
  | Other
deriving DecidableEq, Repr

/-- Accumulated effect of processing one message batch: resulting protocol
state, error replies sent, and whether the connection must be dropped. -/
structure MsgAcc where
  st : ClientState
  errs : List RequestStateError
  disconnect : Bool
deriving DecidableEq, Repr

/-- Processing of a single inbound message (the `match msg` of
lib.rs:423–573), restricted to its session-state effects.  `allow_state` sets
the new protocol state; `error_state` replies with the typed rejection and
leaves the state unchanged. -/
def processMsg (acc : MsgAcc) (m : ClientMsg) : MsgAcc :=
  match m with
  | .RequestState rs =>
    match handleRequestState acc.st rs with
    | .disconnect => { acc with disconnect := true }
    | .errorState e => { acc with errs := acc.errs ++ [e] }
    | .allowState s => { acc with st := s }
    | .ignore => acc
  | .Register =>
    match acc.st with
    | .Connected => { acc with st := .Registered }
    | _ => { acc with errs := acc.errs ++ [.Impossible] }
  | .CharacterMsg =>
    match acc.st with
    | .Connected => { acc with errs := acc.errs ++ [.Impossible] }
    | .Registered | .Spectator | .Dead => { acc with st := .Character }
    | .Character => { acc with errs := acc.errs ++ [.Already] }
    | .Pending => acc
  | .Ping => acc
  | .Pong => acc
  | .Disconnect => { acc with disconnect := true }
  | .Other => acc

/-- `CLIENT_TIMEOUT` (lib.rs:38), in seconds. -/
def CLIENT_TIMEOUT : ℚ := 20

/-- Per-connection state relevant to the keep-alive logic: protocol state,
time of the last received message, and whether the postbox reports a
transport error. -/
structure Conn where
  clientState : ClientState
  lastPing : ℚ
  hasError : Bool
deriving DecidableEq, Repr

/-- Result of one tick of the `remove_if` closure for one connection. -/
structure ConnResult where
  conn : Conn
  removed : Bool
  sentPing : Bool
  errs : List RequestStateError
deriving DecidableEq, Repr

/-- One tick of the per-connection closure of `handle_new_messages`
(lib.rs:413–595): if messages arrived, refresh `last_ping` and process them in
order; otherwise disconnect on timeout (strictly more than 20 s since the last
message) or on a transport error, and send a keep-alive ping when strictly
more than half the timeout has elapsed. -/
def handleConnTick (time : ℚ) (msgs : List ClientMsg) (c : Conn) : ConnResult :=
  if msgs.length > 0 then
    let acc := msgs.foldl processMsg { st := c.clientState, errs := [], disconnect := false }
    { conn := { c with clientState := acc.st, lastPing := time }
      removed := acc.disconnect
      sentPing := false
      errs := acc.errs }
  else if time - c.lastPing > CLIENT_TIMEOUT ∨ c.hasError = true then
    { conn := c, removed := true, sentPing := false, errs := [] }
  else if time - c.lastPing > CLIENT_TIMEOUT * (1 / 2) then
    { conn := c, removed := false, sentPing := true, errs := [] }
  else
    { conn := c, removed := false, sentPing := false, errs := [] }

/-- The connection sweep of `handle_new_messages` (lib.rs:413, 585–623):
`remove_if` drops every connection whose tick ended with `disconnect`, and
each dropped connection has its entity deleted
(`delete_entity_synced`, lib.rs:620). -/
def serverProcess (time : ℚ) (conns : List (Nat × Conn × List ClientMsg))
    (entities : List Nat) : List (Nat × Conn) × List Nat :=
  let results := conns.map fun x => (x.1, handleConnTick time x.2.2 x.2.1)
  let removedIds := results.filterMap fun x => if x.2.removed then some x.1 else none
  (results.filterMap fun x => if x.2.removed then none else some (x.1, x.2.conn),
   entities.filter fun e => decide (e ∉ removedIds))

/-! ### Interest-based replication, from `Server::sync_clients`
(`src/server/src/lib.rs`, lines 680–766). -/

/-- An entity as seen by the physics-sync join of `sync_clients`
(lib.rs:686–697): it must carry `Uid`, `Pos`, `Vel` and `Ori`, and may carry
the one-tick `ForceUpdate` marker. -/
structure SyncEntity where
  eid : Nat
  uid : Nat
  pos : V3
  vel : Vel
  ori : V3
  forceUpdate : Bool
deriving DecidableEq, Repr

/-- A connection as read by the `in_vd` closure (lib.rs:709–729): the entity
it controls, its protocol state, the `Pos` of the controlled entity and the
`Player.view_distance`, each of which may be absent. -/
structure ClientConn where
  ceid : Nat
  state : ClientState
  cpos : Option V3
  viewDistance : Option Nat
deriving DecidableEq, Repr

/-- The `EntityPhysics` message content (position, velocity, orientation,
keyed by the stable `Uid`). -/
structure EntityPhysicsMsg where
  uid : Nat
  pos : V3
  vel : Vel
  ori : V3
deriving DecidableEq, Repr

/-- Modelled from the spec: the in-game protocol states — those whose session
is present in the world (`Spectator`, `Character`, `Dead`); the `Clients`
notify helpers live in `server/src/client.rs`, outside the modules under
verification. -/
def isInGame : ClientState → Bool
  | .Spectator => true
  | .Character => true
  | .Dead => true
  | _ => false

/-- One axis of the view-distance test: `(d.abs() as u32) < vd * sz`
(lib.rs:724–727).  The float-to-u32 cast truncates the nonnegative `d.abs()`
toward zero, which is `⌊|d|⌋₊`. -/
def chunkAxisLt (d : ℚ) (bound : Nat) : Bool :=
  decide (⌊|d|⌋₊ < bound)

/-- The `in_vd` closure of `sync_clients` (lib.rs:709–729): false when the
connection has no controlled-entity position or no view distance; otherwise a
per-axis box test in world units against `view_distance * chunk_size`,
conjoined over all axes (`reduce_and`). -/
def in_vd (sz : Nat × Nat × Nat) (subjectPos : V3) (cl : ClientConn) : Bool :=
  match cl.cpos with
  | none => false
  | some cp =>
    match cl.viewDistance with
    | none => false
    | some vd =>
      chunkAxisLt (subjectPos.x - cp.x) (vd * sz.1)
        && chunkAxisLt (subjectPos.y - cp.y) (vd * sz.2.1)
        && chunkAxisLt (subjectPos.z - cp.z) (vd * sz.2.2)

/-- Modelled from the spec: `Clients::notify_ingame_if(msg, pred)` sends the
message to every connection that is in game and satisfies the predicate
(the definition lives in `server/src/client.rs`, outside the modules under
verification; the name and the passed predicate fix its contract). -/
def notify_ingame_if (pred : ClientConn → Bool) (clients : List ClientConn) :
    List Nat :=
  (clients.filter fun cl => isInGame cl.state && pred cl).map fun cl => cl.ceid

/-- Modelled from the spec: `Clients::notify_ingame_if_except(entity, msg,
pred)` is `notify_ingame_if` restricted to connections not controlling the
given entity. -/
def notify_ingame_if_except (except : Nat) (pred : ClientConn → Bool)
    (clients : List ClientConn) : List Nat :=
  (clients.filter fun cl =>
      isInGame cl.state && decide (cl.ceid ≠ except) && pred cl).map fun cl => cl.ceid

/-- The recipients of one entity's physics push in `sync_clients`
(lib.rs:731–734): with `ForceUpdate` the message goes through
`notify_ingame_if` with the `in_vd` predicate, without it through
`notify_ingame_if_except` of the entity itself with the same predicate. -/
def pushTargets (sz : Nat × Nat × Nat) (e : SyncEntity)
    (clients : List ClientConn) : List Nat :=
  if e.forceUpdate then notify_ingame_if (in_vd sz e.pos) clients
  else notify_ingame_if_except e.eid (in_vd sz e.pos) clients

/-- The physics pushes of one entity: each recipient gets the
`EntityPhysics{uid, pos, vel, ori}` message. -/
def physicsPushes (sz : Nat × Nat × Nat) (e : SyncEntity)
    (clients : List ClientConn) : List (Nat × EntityPhysicsMsg) :=
  (pushTargets sz e clients).map fun t => (t, ⟨e.uid, e.pos, e.vel, e.ori⟩)

/-- Chunk size used in the concrete C1 scenarios. -/
def SZ32 : Nat × Nat × Nat := (32, 32, 32)

/-- A forced entity at the origin. -/
def forcedEntity : SyncEntity :=
  { eid := 0, uid := 5, pos := ⟨0, 0, 0⟩
    vel := { linear := ⟨0, 0, 0⟩, accel := ⟨0, 0, 0⟩ }
    ori := ⟨0, 1, 0⟩, forceUpdate := true }

/-- An in-game connection with view distance 2 whose controlled entity sits
5 chunks (160 world units) away from the origin. -/
def farClient : ClientConn :=
  { ceid := 1, state := ClientState.Character, cpos := some ⟨0, 160, 0⟩
    viewDistance := some 2 }

/-- An in-game connection at the origin controlling the forced entity
itself. -/
def nearOwnClient : ClientConn :=
  { ceid := 0, state := ClientState.Character, cpos := some ⟨0, 0, 0⟩
    viewDistance := some 1 }

/-! ### Theorems -/

@[simp] theorem V3.add_x (a b : V3) : (a + b).x = a.x + b.x := rfl

@[simp] theorem V3.add_y (a b : V3) : (a + b).y = a.y + b.y := rfl

@[simp] theorem V3.add_z (a b : V3) : (a + b).z = a.z + b.z := rfl

@[simp] theorem V3.sub_x (a b : V3) : (a - b).x = a.x - b.x := rfl

@[simp] theorem V3.sub_y (a b : V3) : (a - b).y = a.y - b.y := rfl

@[simp] theorem V3.sub_z (a b : V3) : (a - b).z = a.z - b.z := rfl

@[simp] theorem V3.smul_x (q : ℚ) (a : V3) : (V3.smul q a).x = q * a.x := rfl

@[simp] theorem V3.smul_y (q : ℚ) (a : V3) : (V3.smul q a).y = q * a.y := rfl

@[simp] theorem V3.smul_z (q : ℚ) (a : V3) : (V3.smul q a).z = q * a.z := rfl

theorem magSq_nonneg (v : V3) : 0 ≤ magSq v := by
  unfold magSq; positivity

/-- The anti-penetration loop does nothing when every terrain sample is absent
(absence is treated as non-solid). -/
theorem collideLoop_empty (n : Nat) (p l : V3) :
    collideLoop (fun _ _ _ => none) n p l = (p, l) := by
  cases n <;> simp [collideLoop, terrSolid]

/-- The vertical clamp bounds the vertical velocity by `HUMANOID_AIR_SPEED`. -/
theorem clampZ_abs_le (v : V3) : |(clampZ v).z| ≤ HUMANOID_AIR_SPEED := by
  by_cases h1 : v.z > HUMANOID_AIR_SPEED
  · simp only [clampZ, if_pos h1]
    norm_num [HUMANOID_AIR_SPEED]
  · by_cases h2 : v.z < -HUMANOID_AIR_SPEED
    · simp only [clampZ, if_neg h1, if_pos h2]
      norm_num [HUMANOID_AIR_SPEED]
    · simp only [clampZ, if_neg h1, if_neg h2]
      exact abs_le.mpr ⟨not_lt.mp h2, not_lt.mp h1⟩

/-- C3 (amended): for an entity with zero cached acceleration and no active
mode marker, a single integration step with nonzero gravity decreases the
vertical velocity by exactly `gravity * dt / 2` before drag (not `gravity * dt`:
the Verlet update averages the zero cached acceleration with the fresh one),
the decrease is strict once the nonnegative drag term is added back, the
velocity produced by the whole per-entity step is exactly the clamped
integration result, and the post-clamp vertical velocity magnitude never
exceeds `100.0`. -/
theorem integrate_gravity_half_step_and_clamp
    (mag3 : V3 → ℚ) (mag2 : ℚ → ℚ → ℚ) (norm3 : V3 → V3)
    (dt : ℚ) (e : PhysEntity)
    (hdt : 0 < dt) (hdead : e.isDead = false) (hmove : e.moveDir = none)
    (hjump : e.jumping = false) (hglide : e.gliding = false) (hroll : e.rolling = none)
    (hair : e.onGround = false) (hacc : e.vel.accel = ⟨0, 0, 0⟩) :
    (integrateRaw dt false e.vel).z
        = e.vel.linear.z - GRAV_ACCEL * dt / 2
          - dt / 2 * (1 / 2 * get_friction_factor false * magSq e.vel.linear)
    ∧ (integrateRaw dt false e.vel).z < e.vel.linear.z
    ∧ (phys_step mag3 mag2 norm3 (fun _ _ _ => none) dt e).vel.linear
        = clampZ (integrateRaw dt false e.vel)
    ∧ |(phys_step mag3 mag2 norm3 (fun _ _ _ => none) dt e).vel.linear.z|
        ≤ HUMANOID_AIR_SPEED := by
  have heq : (integrateRaw dt false e.vel).z
      = e.vel.linear.z - GRAV_ACCEL * dt / 2
        - dt / 2 * (1 / 2 * get_friction_factor false * magSq e.vel.linear) := by
    simp [integrateRaw, resolve_forces, hacc, get_grav_accel]
    ring
  have hstep : (phys_step mag3 mag2 norm3 (fun _ _ _ => none) dt e).vel.linear
      = clampZ (integrateRaw dt false e.vel) := by
    have hvel : { linear := e.vel.linear, accel := e.vel.accel } = e.vel := rfl
    simp [phys_step, hdead, hmove, hjump, hglide, hroll, hair, collideLoop_empty,
      integrate, hvel]
  refine ⟨heq, ?_, hstep, ?_⟩
  · rw [heq]
    have hm : 0 ≤ dt * magSq e.vel.linear := mul_nonneg hdt.le (magSq_nonneg _)
    have hG : GRAV_ACCEL = 981 / 25 := by norm_num [GRAV_ACCEL]
    have hF : get_friction_factor false = 3 / 4 := by
      norm_num [get_friction_factor, FRIC_AIR]
    rw [hG, hF]
    nlinarith [hm, hdt]
  · rw [hstep]
    exact clampZ_abs_le _

/-- C3 counterexample: at rest in the air with `dt = 1` and zero drag, the
integration step changes the vertical velocity to `-981/50 = -gravity/2`, not
to `-981/25 = -gravity * dt`, refuting the claimed decrease of `gravity * dt`
before drag. -/
theorem integrate_gravity_full_dt_refuted :
    (integrateRaw 1 false restEnt.vel).z = -(981 / 50)
      ∧ (integrateRaw 1 false restEnt.vel).z ≠ restEnt.vel.linear.z - GRAV_ACCEL * 1 := by
  constructor
  · norm_num [integrateRaw, resolve_forces, restEnt, magSq, get_grav_accel,
      get_friction_factor, GRAV_ACCEL, FRIC_AIR, V3.smul]
  · norm_num [integrateRaw, resolve_forces, restEnt, magSq, get_grav_accel,
      get_friction_factor, GRAV_ACCEL, FRIC_AIR, V3.smul]

/-- Witness for the amended C3 at the concrete resting entity. -/
theorem integrate_gravity_half_step_and_clamp_witness :
    (integrateRaw 1 false restEnt.vel).z < restEnt.vel.linear.z
      ∧ |(phys_step (fun _ => 0) (fun _ _ => 0) (fun v => v)
            (fun _ _ _ => none) 1 restEnt).vel.linear.z| ≤ HUMANOID_AIR_SPEED := by
  have h := integrate_gravity_half_step_and_clamp (fun _ => 0) (fun _ _ => 0) (fun v => v)
    1 restEnt (by norm_num) rfl rfl rfl rfl rfl rfl rfl
  exact ⟨h.2.1, h.2.2.2⟩

/-- C8: the horizontal drive adds `dt * intent * accel_rate` to the horizontal
velocity with `(accel_rate, cap)` selected by the mode table — grounded
`(70, 120)`, gliding `(15, 45)`, airborne `(10, 100)`, grounded rolling
`(160, 550)` — and applies zero acceleration when the speed is at or above the
cap of the mode, or for any other mode combination. -/
theorem move_intent_mode_table (mag3 : V3 → ℚ) (dt : ℚ) (og gl ro : Bool)
    (d : V2) (v : V3) :
    (og = true → gl = false → ro = false → mag3 v < HUMANOID_SPEED →
      moveDirStep mag3 dt og gl ro d v
        = ⟨v.x + dt * d.x * HUMANOID_ACCEL, v.y + dt * d.y * HUMANOID_ACCEL, v.z⟩)
    ∧ (og = false → gl = true → ro = false → mag3 v < GLIDE_SPEED →
      moveDirStep mag3 dt og gl ro d v
        = ⟨v.x + dt * d.x * GLIDE_ACCEL, v.y + dt * d.y * GLIDE_ACCEL, v.z⟩)
    ∧ (og = false → gl = false → ro = false → mag3 v < HUMANOID_AIR_SPEED →
      moveDirStep mag3 dt og gl ro d v
        = ⟨v.x + dt * d.x * HUMANOID_AIR_ACCEL, v.y + dt * d.y * HUMANOID_AIR_ACCEL, v.z⟩)
    ∧ (og = true → gl = false → ro = true → mag3 v < ROLL_SPEED →
      moveDirStep mag3 dt og gl ro d v
        = ⟨v.x + dt * d.x * ROLL_ACCEL, v.y + dt * d.y * ROLL_ACCEL, v.z⟩)
    ∧ (og = true → gl = false → ro = false → HUMANOID_SPEED ≤ mag3 v →
      moveDirStep mag3 dt og gl ro d v = v)
    ∧ (og = false → gl = true → ro = false → GLIDE_SPEED ≤ mag3 v →
      moveDirStep mag3 dt og gl ro d v = v)
    ∧ (og = false → gl = false → ro = false → HUMANOID_AIR_SPEED ≤ mag3 v →
      moveDirStep mag3 dt og gl ro d v = v)
    ∧ (og = true → gl = false → ro = true → ROLL_SPEED ≤ mag3 v →
      moveDirStep mag3 dt og gl ro d v = v)
    ∧ (gl = true → ro = true → moveDirStep mag3 dt og gl ro d v = v)
    ∧ (og = true → gl = true → moveDirStep mag3 dt og gl ro d v = v)
    ∧ (og = false → ro = true → moveDirStep mag3 dt og gl ro d v = v) := by
  refine ⟨?_, ?_, ?_, ?_, ?_, ?_, ?_, ?_, ?_, ?_, ?_⟩
  · intro h1 h2 h3 h4; subst h1; subst h2; subst h3
    simp [moveDirStep, moveAccel, h4]
  · intro h1 h2 h3 h4; subst h1; subst h2; subst h3
    simp [moveDirStep, moveAccel, h4]
  · intro h1 h2 h3 h4; subst h1; subst h2; subst h3
    simp [moveDirStep, moveAccel, h4]
  · intro h1 h2 h3 h4; subst h1; subst h2; subst h3
    simp [moveDirStep, moveAccel, h4]
  · intro h1 h2 h3 h4; subst h1; subst h2; subst h3
    simp [moveDirStep, moveAccel, not_lt.mpr h4]
  · intro h1 h2 h3 h4; subst h1; subst h2; subst h3
    simp [moveDirStep, moveAccel, not_lt.mpr h4]
  · intro h1 h2 h3 h4; subst h1; subst h2; subst h3
    simp [moveDirStep, moveAccel, not_lt.mpr h4]
  · intro h1 h2 h3 h4; subst h1; subst h2; subst h3
    simp [moveDirStep, moveAccel, not_lt.mpr h4]
  · intro h1 h2; subst h1; subst h2
    simp [moveDirStep, moveAccel]
  · intro h1 h2; subst h1; subst h2
    simp [moveDirStep, moveAccel]
  · intro h1 h2; subst h1; subst h2
    simp [moveDirStep, moveAccel]

/-- Witness for C8 at a concrete grounded entity below the speed cap. -/
theorem move_intent_mode_table_witness :
    moveDirStep (fun _ => 0) 1 true false false ⟨1, 2⟩ ⟨0, 0, 0⟩ = ⟨70, 140, 0⟩ := by
  have h := (move_intent_mode_table (fun _ => 0) 1 true false false ⟨1, 2⟩ ⟨0, 0, 0⟩).1
    rfl rfl rfl (by norm_num [HUMANOID_SPEED])
  rw [h]
  norm_num [HUMANOID_ACCEL]

/-- C4: when the attacker at index `i` carries an active, not-yet-applied
`Attacking` marker, its swing hits every other entity that has the target
components, is alive, is within squared distance 50 and within 70 degrees of
the attacker facing — each such target receives exactly one `change_by (-10)`
attributed to the attacker `Uid`, the knockback, and a `ForceUpdate` marker,
all in this one swing (multi-target); the attacker itself keeps its stats,
velocity and `ForceUpdate` flag untouched, and dead entities are untouched. -/
theorem attack_scan_hits_cone_targets
    (angleDeg : V3 → V3 → ℚ) (norm3 : V3 → V3) (dt : ℚ)
    (es : List CEntity) (i : Nat) (a : CEntity) (uid : Nat) (apos aori : V3)
    (att : Attacking)
    (ha : es[i]? = some a) (hu : a.uid = some uid) (hpos : a.pos = some apos)
    (hori : a.ori = some aori) (hatt : a.attacking = some att)
    (happ : att.applied = false) :
    (∀ (j : Nat) (b : CEntity) (pb : V3) (vb : Vel) (sb : Stats),
        es[j]? = some b → b.pos = some pb → b.vel = some vb →
        b.stats = some sb → b.eid ≠ a.eid → sb.is_dead = false →
        distSq apos pb < 50 → angleDeg aori (pb - apos) < 70 →
        (combatTickOne angleDeg norm3 dt es i)[j]? = some
          { b with
            stats := some { sb with hp := sb.hp.change_by (-10) (HealthSource.Attack uid) }
            vel := some (knockback norm3 apos pb vb)
            forceUpdate := true })
    ∧ (∃ att2, (combatTickOne angleDeg norm3 dt es i)[i]?
        = some { a with attacking := att2 })
    ∧ (∀ (j : Nat) (b : CEntity) (sb : Stats), j ≠ i → es[j]? = some b →
        b.stats = some sb → sb.is_dead = true →
        (combatTickOne angleDeg norm3 dt es i)[j]? = some b) := by
  have hstep : combatTickOne angleDeg norm3 dt es i
      = (attackScan angleDeg norm3 a.eid uid apos aori es).set i
          { a with attacking := (attackingTick dt att).1 } := by
    simp [combatTickOne, List.get?_eq_getElem?, ha, hu, hpos, hori, hatt, happ]
  have hi : i < es.length := (List.getElem?_eq_some.mp ha).1
  refine ⟨?_, ?_, ?_⟩
  · intro j b pb vb sb hb hbp hbv hbs hne hdead hdist hang
    have hji : i ≠ j := by
      intro hji
      subst hji
      rw [ha] at hb
      have hab : a = b := by injection hb
      subst hab
      exact hne rfl
    have hht : hitTest angleDeg a.eid apos aori b = true := by
      simp [hitTest, hbp, hbv, hbs, hdead, hdist, hang, Ne.symm hne]
    rw [hstep, List.getElem?_set_ne hji]
    simp only [attackScan, List.getElem?_map, hb, Option.map_some']
    rw [if_pos hht]
    simp [applyHit, hbp, hbv, hbs]
  · refine ⟨(attackingTick dt att).1, ?_⟩
    rw [hstep]
    exact List.getElem?_set_eq_of_lt _ (by simpa [attackScan] using hi)
  · intro j b sb hji hb hbs hdead
    rw [hstep, List.getElem?_set_ne (Ne.symm hji)]
    simp only [attackScan, List.getElem?_map, hb, Option.map_some']
    have hht : hitTest angleDeg a.eid apos aori b = false := by
      rcases hp2 : b.pos with _ | pb <;> rcases hv2 : b.vel with _ | vb <;>
        simp [hitTest, hp2, hv2, hbs, hdead]
    rw [if_neg (by simp [hht])]

/-- Witness for C4: the target 5 units directly ahead is hit — 10 damage from
the attacker `Uid`, knockback and forced replication. -/
theorem attack_scan_hits_cone_targets_witness :
    (combatTickOne (fun _ _ => 0) (fun v => v) 1 [watk, wtgt] 0)[1]?
      = some { wtgt with
          stats := some { hp := Hp.change_by ⟨100, 100, none⟩ (-10) (HealthSource.Attack 7),
                          is_dead := false }
          vel := some (knockback (fun v => v) ⟨0, 0, 0⟩ ⟨0, 5, 0⟩
                        { linear := ⟨0, 0, 0⟩, accel := ⟨0, 0, 0⟩ })
          forceUpdate := true } := by
  exact (attack_scan_hits_cone_targets (fun _ _ => 0) (fun v => v) 1 [watk, wtgt] 0
      watk 7 ⟨0, 0, 0⟩ ⟨0, 1, 0⟩ Attacking.start rfl rfl rfl rfl rfl rfl).1
    1 wtgt ⟨0, 5, 0⟩ { linear := ⟨0, 0, 0⟩, accel := ⟨0, 0, 0⟩ }
    { hp := ⟨100, 100, none⟩, is_dead := false }
    rfl rfl rfl rfl (by decide) rfl (by norm_num [distSq, magSq]) (by norm_num)

/-- Each combat tick rewrites the attacker `Attacking` component exactly as
`attackingTick` prescribes, whether or not the hit scan ran, so iterating
`attackingTick` is the per-swing trajectory of the component. -/
theorem combatTickOne_attacking_step (angleDeg : V3 → V3 → ℚ) (norm3 : V3 → V3)
    (dt : ℚ) (es : List CEntity) (i : Nat) (a : CEntity) (uid : Nat)
    (apos aori : V3) (att : Attacking)
    (ha : es[i]? = some a) (hu : a.uid = some uid) (hpos : a.pos = some apos)
    (hori : a.ori = some aori) (hatt : a.attacking = some att) :
    (combatTickOne angleDeg norm3 dt es i)[i]?
      = some { a with attacking := (attackingTick dt att).1 } := by
  have hi : i < es.length := (List.getElem?_eq_some.mp ha).1
  cases happ : att.applied
  · have hstep : combatTickOne angleDeg norm3 dt es i
        = (attackScan angleDeg norm3 a.eid uid apos aori es).set i
            { a with attacking := (attackingTick dt att).1 } := by
      simp [combatTickOne, List.get?_eq_getElem?, ha, hu, hpos, hori, hatt, happ]
    rw [hstep]
    exact List.getElem?_set_eq_of_lt _ (by simpa [attackScan] using hi)
  · have hstep : combatTickOne angleDeg norm3 dt es i
        = es.set i { a with attacking := (attackingTick dt att).1 } := by
      simp [combatTickOne, List.get?_eq_getElem?, ha, hu, hpos, hori, hatt, happ]
    rw [hstep]
    exact List.getElem?_set_eq_of_lt _ hi

/-- Once the applied flag is set, the hit scan never runs again. -/
theorem swingRun_applied_count (dts : List ℚ) :
    ∀ att : Attacking, att.applied = true → (swingRun dts att).2 = 0 := by
  induction dts with
  | nil => intro att _; rfl
  | cons dt rest ih =>
    intro att h
    by_cases ht : att.time > 1 / 2
    · have hs : attackingTick dt att = (none, !att.applied) := by
        unfold attackingTick
        rw [if_pos ht]
      simp [swingRun, hs, h]
    · have hs : attackingTick dt att = (some ⟨att.time + dt, true⟩, !att.applied) := by
        unfold attackingTick
        rw [if_neg ht]
      simp [swingRun, hs, h, ih ⟨att.time + dt, true⟩ rfl]

/-- For a swing whose applied flag is still clear, the hit scan runs exactly
once when there is at least one tick. -/
theorem swingRun_count (dts : List ℚ) (att : Attacking) (h : att.applied = false) :
    (swingRun dts att).2 = if dts = [] then 0 else 1 := by
  cases dts with
  | nil => rfl
  | cons dt rest =>
    by_cases ht : att.time > 1 / 2
    · have hs : attackingTick dt att = (none, !att.applied) := by
        unfold attackingTick
        rw [if_pos ht]
      simp [swingRun, hs, h]
    · have hs : attackingTick dt att = (some ⟨att.time + dt, true⟩, !att.applied) := by
        unfold attackingTick
        rw [if_neg ht]
      simp [swingRun, hs, h, swingRun_applied_count rest ⟨att.time + dt, true⟩ rfl]

/-- The component is removed exactly when, at the start of some tick, the
stored elapsed time (the sum of the previous tick durations) exceeds 0.5. -/
theorem swingRun_removed_iff (dts : List ℚ) :
    ∀ att : Attacking,
      ((swingRun dts att).1 = none
        ↔ ∃ k, k < dts.length ∧ att.time + ((dts.take k).sum) > 1 / 2) := by
  induction dts with
  | nil => intro att; simp [swingRun]
  | cons dt rest ih =>
    intro att
    by_cases ht : att.time > 1 / 2
    · have hs : attackingTick dt att = (none, !att.applied) := by
        unfold attackingTick
        rw [if_pos ht]
      simp only [swingRun, hs]
      constructor
      · intro _
        exact ⟨0, by simp, by simpa using ht⟩
      · intro _
        trivial
    · have hs : attackingTick dt att = (some ⟨att.time + dt, true⟩, !att.applied) := by
        unfold attackingTick
        rw [if_neg ht]
      simp only [swingRun, hs]
      constructor
      · intro hnone
        obtain ⟨k, hk, hsum⟩ := (ih ⟨att.time + dt, true⟩).mp (by simpa using hnone)
        refine ⟨k + 1, by simpa using hk, ?_⟩
        simp only [List.take_succ_cons, List.sum_cons]
        simp only at hsum
        linarith
      · rintro ⟨k, hk, hsum⟩
        cases k with
        | zero =>
          simp only [List.take_zero, List.sum_nil, add_zero] at hsum
          exact absurd hsum ht
        | succ k =>
          have := (ih ⟨att.time + dt, true⟩).mpr
            ⟨k, by simpa using hk, by
              simp only [List.take_succ_cons, List.sum_cons] at hsum
              simp only
              linarith⟩
          simpa using this

/-- C5: starting from a fresh swing, the applied flag flips false-to-true, and
with it the hit scan runs, exactly once per swing (at most once over any tick
sequence, exactly once as soon as one tick happens); and the `Attacking`
component is removed exactly at the first tick whose starting elapsed time —
the sum of the earlier tick durations — exceeds 0.5 seconds, being retained
on every earlier tick. -/
theorem swing_applied_once_and_window (dts : List ℚ) :
    ((swingRun dts Attacking.start).1 = none
      ↔ ∃ k, k < dts.length ∧ (dts.take k).sum > 1 / 2)
    ∧ (swingRun dts Attacking.start).2 ≤ 1
    ∧ (dts ≠ [] → (swingRun dts Attacking.start).2 = 1) := by
  refine ⟨?_, ?_, ?_⟩
  · have h := swingRun_removed_iff dts Attacking.start
    simpa [Attacking.start] using h
  · rw [swingRun_count dts Attacking.start rfl]
    split <;> simp
  · intro h
    rw [swingRun_count dts Attacking.start rfl, if_neg h]

/-- Witness for C5: three 0.3-second ticks — the scan runs once and the
component is removed on the third tick, when the stored time 0.6 exceeds 0.5. -/
theorem swing_applied_once_and_window_witness :
    (swingRun [3 / 10, 3 / 10, 3 / 10] Attacking.start).1 = none
      ∧ (swingRun [3 / 10, 3 / 10, 3 / 10] Attacking.start).2 = 1 := by
  have h := swing_applied_once_and_window [3 / 10, 3 / 10, 3 / 10]
  exact ⟨h.1.mpr ⟨2, by norm_num, by norm_num⟩, h.2.2 (by simp)⟩

theorem jobCount_workerFinish {K C : Type} [DecidableEq K] (gen : K → C)
    (key : K) (s : ChunkMgr K C) (k : K) :
    jobCount k (workerFinish gen key s) = jobCount k s := by
  unfold workerFinish jobCount
  by_cases hin : key ∈ s.inflight
  · rw [if_pos hin]
    simp only [List.map_append, List.count_append, List.map_cons, List.map_nil]
    by_cases hk : k = key
    · subst hk
      have hpos : 0 < s.inflight.count k := List.count_pos_iff.mpr hin
      have := List.count_erase_self k s.inflight
      simp [this, List.count_cons]
      omega
    · have := List.count_erase_of_ne hk s.inflight
      simp [this, List.count_cons, hk]
  · rw [if_neg hin]

theorem workerFinish_pending {K C : Type} [DecidableEq K] (gen : K → C)
    (key : K) (s : ChunkMgr K C) :
    (workerFinish gen key s).pending = s.pending := by
  unfold workerFinish
  by_cases hin : key ∈ s.inflight
  · rw [if_pos hin]
  · rw [if_neg hin]

theorem generate_chunk_pending {K C : Type} [DecidableEq K] (key : K)
    (s : ChunkMgr K C) (h : key ∉ s.pending) :
    (generate_chunk key s).pending = key :: s.pending := by
  unfold generate_chunk
  rw [if_neg h]

theorem jobCount_generate_chunk {K C : Type} [DecidableEq K] (key k : K)
    (s : ChunkMgr K C) (h : key ∉ s.pending) :
    jobCount k (generate_chunk key s) = jobCount k s + (if k = key then 1 else 0) := by
  unfold generate_chunk jobCount
  rw [if_neg h]
  simp only [List.count_append, List.count_cons, List.count_nil]
  by_cases hk : k = key
  · simp [hk]
    omega
  · simp [hk]
    exact fun hkey => hk hkey.symm

theorem drain_completed_empty {K C : Type} [DecidableEq K] (s : ChunkMgr K C)
    (h : s.completed = []) : drain_completed s = s := by
  unfold drain_completed
  rw [h]

theorem drain_completed_cons {K C : Type} [DecidableEq K] (s : ChunkMgr K C)
    (key : K) (c : C) (rest : List (K × C)) (h : s.completed = (key, c) :: rest) :
    (drain_completed s).completed = rest
      ∧ (drain_completed s).pending = s.pending.erase key
      ∧ (drain_completed s).chunks = insertChunk key c s.chunks
      ∧ (drain_completed s).inflight = s.inflight := by
  unfold drain_completed
  rw [h]
  exact ⟨rfl, rfl, rfl, rfl⟩

theorem jobCount_drain_completed {K C : Type} [DecidableEq K] (s : ChunkMgr K C)
    (key : K) (c : C) (rest : List (K × C)) (h : s.completed = (key, c) :: rest)
    (k : K) :
    jobCount k s = jobCount k (drain_completed s) + (if k = key then 1 else 0) := by
  obtain ⟨h1, -, -, h4⟩ := drain_completed_cons s key c rest h
  unfold jobCount
  rw [h1, h4, h]
  simp only [List.map_cons, List.count_cons]
  by_cases hk : k = key
  · simp [hk]
    omega
  · simp [hk]
    exact fun hkey => hk hkey.symm

/-- C6: per chunk key at most one generation job is ever in flight — a request
for a pending key is a no-op, a request for a non-pending key marks it pending
and dispatches exactly one job, the invariant is preserved by requests, worker
completions, drains and evictions, and a key leaves the pending set only when
it is the key of the drained completion (never on request, completion or
eviction). -/
theorem chunk_request_dedup_invariant {K C : Type} [DecidableEq K]
    (gen : K → C) (s : ChunkMgr K C) (key : K) :
    (key ∈ s.pending → generate_chunk key s = s)
    ∧ (key ∉ s.pending → (generate_chunk key s).pending = key :: s.pending)
    ∧ (ChunkInv s → key ∉ s.pending → jobCount key (generate_chunk key s) = 1)
    ∧ (ChunkInv s → ChunkInv (generate_chunk key s))
    ∧ (ChunkInv s → ChunkInv (workerFinish gen key s))
    ∧ (ChunkInv s → ChunkInv (drain_completed s))
    ∧ (∀ k, k ∈ s.pending → k ∈ (generate_chunk key s).pending)
    ∧ (∀ k, k ∈ s.pending → k ∈ (workerFinish gen key s).pending)
    ∧ (∀ k, k ∈ s.pending → k ∈ (remove_chunk key s).pending)
    ∧ (∀ k, k ∈ s.pending → k ∉ (drain_completed s).pending →
        (s.completed.map Prod.fst).head? = some k) := by
  have hcount0 : ∀ k, ChunkInv s → k ∉ s.pending → jobCount k s = 0 := by
    intro k hinv hk
    by_contra h
    exact hk ((hinv.2 k).2 (Nat.one_le_iff_ne_zero.mpr h))
  refine ⟨?_, ?_, ?_, ?_, ?_, ?_, ?_, ?_, ?_, ?_⟩
  · intro h
    unfold generate_chunk
    rw [if_pos h]
  · intro h
    exact generate_chunk_pending key s h
  · intro hinv h
    rw [jobCount_generate_chunk key key s h, hcount0 key hinv h, if_pos rfl]
  · intro hinv
    by_cases h : key ∈ s.pending
    · have heq : generate_chunk key s = s := by
        unfold generate_chunk
        rw [if_pos h]
      rw [heq]
      exact hinv
    · refine ⟨?_, ?_⟩
      · rw [generate_chunk_pending key s h]
        exact List.nodup_cons.mpr ⟨h, hinv.1⟩
      · intro k
        rw [jobCount_generate_chunk key k s h, generate_chunk_pending key s h]
        have h0 := hcount0 key hinv h
        have h1 := (hinv.2 k).1
        have h2 := (hinv.2 k).2
        by_cases hk : k = key
        · subst hk
          simp only [if_pos rfl, h0]
          exact ⟨le_refl 1, fun _ => List.mem_cons_self _ _⟩
        · simp only [if_neg hk, Nat.add_zero]
          exact ⟨h1, fun hone => List.mem_cons_of_mem _ (h2 hone)⟩
  · intro hinv
    refine ⟨?_, ?_⟩
    · rw [workerFinish_pending]
      exact hinv.1
    · intro k
      rw [jobCount_workerFinish, workerFinish_pending]
      exact hinv.2 k
  · intro hinv
    rcases hc : s.completed with _ | ⟨⟨k0, c0⟩, rest⟩
    · rw [drain_completed_empty s hc]
      exact hinv
    · obtain ⟨-, hp, -, -⟩ := drain_completed_cons s k0 c0 rest hc
      refine ⟨?_, ?_⟩
      · rw [hp]
        exact hinv.1.erase k0
      · intro k
        have hcnt := jobCount_drain_completed s k0 c0 rest hc k
        have h1 := (hinv.2 k).1
        have h2 := (hinv.2 k).2
        by_cases hk : k = k0
        · subst hk
          simp at hcnt
          refine ⟨by omega, ?_⟩
          intro hone
          exact absurd h1 (by omega)
        · simp only [if_neg hk, Nat.add_zero] at hcnt
          refine ⟨by omega, ?_⟩
          intro hone
          rw [hp]
          exact (List.mem_erase_of_ne hk).mpr (h2 (by omega))
  · intro k hk
    by_cases h : key ∈ s.pending
    · have heq : generate_chunk key s = s := by
        unfold generate_chunk
        rw [if_pos h]
      rw [heq]
      exact hk
    · rw [generate_chunk_pending key s h]
      exact List.mem_cons_of_mem _ hk
  · intro k hk
    rw [workerFinish_pending]
    exact hk
  · intro k hk
    exact hk
  · intro k hk hk2
    rcases hc : s.completed with _ | ⟨⟨k0, c0⟩, rest⟩
    · rw [drain_completed_empty s hc] at hk2
      exact absurd hk hk2
    · obtain ⟨-, hp, -, -⟩ := drain_completed_cons s k0 c0 rest hc
      rw [hp] at hk2
      have hkk0 : k = k0 := by
        by_contra hne
        exact hk2 ((List.mem_erase_of_ne hne).mpr hk)
      subst hkk0
      simp [hc]

/-- Witness for C6: requesting a fresh key in the empty pipeline marks it
pending. -/
theorem chunk_request_dedup_invariant_witness :
    (generate_chunk (0 : Int) (⟨[], [], [], []⟩ : ChunkMgr Int Nat)).pending = [0] :=
  (chunk_request_dedup_invariant (fun _ => (0 : Nat))
    (⟨[], [], [], []⟩ : ChunkMgr Int Nat) 0).2.1 (by simp)

/-- C7: the per-tick drain is non-blocking (no completed result means the
state is untouched) and consumes exactly the first completed pair even when
more are queued — that key is erased from the pending set (gone entirely when
the pending set has no duplicates) and its chunk is inserted into and found in
the chunk map. -/
theorem chunk_drain_at_most_one {K C : Type} [DecidableEq K] (s : ChunkMgr K C) :
    (s.completed = [] → drain_completed s = s)
    ∧ (∀ (key : K) (c : C) (rest : List (K × C)), s.completed = (key, c) :: rest →
        (drain_completed s).completed = rest
        ∧ (drain_completed s).pending = s.pending.erase key
        ∧ (drain_completed s).chunks = insertChunk key c s.chunks
        ∧ (s.pending.Nodup → key ∉ (drain_completed s).pending)
        ∧ lookupChunk key (drain_completed s).chunks = some c) := by
  constructor
  · intro h
    unfold drain_completed
    rw [h]
  · intro key c rest h
    unfold drain_completed
    rw [h]
    refine ⟨rfl, rfl, rfl, ?_, ?_⟩
    · intro hnd
      exact hnd.not_mem_erase
    · simp [lookupChunk, insertChunk]

/-- Witness for C7: draining a two-element completion queue takes only the
first pair and removes only its key from the pending set. -/
theorem chunk_drain_at_most_one_witness :
    (drain_completed (⟨[3, 5], [], [(3, 30), (5, 50)], []⟩ : ChunkMgr Int Nat)).completed
        = [(5, 50)]
      ∧ (drain_completed (⟨[3, 5], [], [(3, 30), (5, 50)], []⟩ : ChunkMgr Int Nat)).pending
        = [5] := by
  have h := (chunk_drain_at_most_one
    (⟨[3, 5], [], [(3, 30), (5, 50)], []⟩ : ChunkMgr Int Nat)).2 3 30 [(5, 50)] rfl
  exact ⟨h.1, by rw [h.2.1]; rfl⟩

/-- C2 (the code as written): handling `RequestState(Spectator)` replies
`Already` from every current state — in particular from `Registered`, where
the specified `Registered ⇄ Spectator` edge should allow the transition.  The
inner match of the `Spectator` arm (lib.rs:439) inspects `requested_state`
instead of `client.client_state`, so its `allow_state` arm is unreachable. -/
theorem request_spectator_always_already (current : ClientState) :
    handleRequestState current ClientState.Spectator
      = ReqOutcome.errorState RequestStateError.Already := by
  cases current <;> rfl

/-- C9: with no inbound messages this tick, a connection is removed when
strictly more than 20 seconds have passed since its last message or when its
channel reports a transport error; when neither holds but strictly more than
10 seconds have passed, a keep-alive ping is sent and the connection is
kept. -/
theorem client_timeout_policy (time : ℚ) (c : Conn) :
    ((time - c.lastPing > CLIENT_TIMEOUT ∨ c.hasError = true) →
      (handleConnTick time [] c).removed = true)
    ∧ (time - c.lastPing ≤ CLIENT_TIMEOUT → c.hasError = false →
      time - c.lastPing > CLIENT_TIMEOUT * (1 / 2) →
      (handleConnTick time [] c).removed = false
        ∧ (handleConnTick time [] c).sentPing = true) := by
  constructor
  · intro h
    simp only [handleConnTick, List.length_nil, gt_iff_lt, lt_self_iff_false, if_false]
    rw [if_pos h]
  · intro h1 h2 h3
    have hnot : ¬(time - c.lastPing > CLIENT_TIMEOUT ∨ c.hasError = true) := by
      rintro (h | h)
      · exact absurd h (not_lt.mpr h1)
      · rw [h2] at h
        cases h
    simp only [handleConnTick, List.length_nil, gt_iff_lt, lt_self_iff_false, if_false]
    rw [if_neg hnot, if_pos h3]
    exact ⟨rfl, rfl⟩

/-- Witness for C9: 15 seconds of silence on a healthy channel triggers a
keep-alive ping without disconnecting. -/
theorem client_timeout_policy_witness :
    (handleConnTick 15 [] ⟨ClientState.Character, 0, false⟩).removed = false
      ∧ (handleConnTick 15 [] ⟨ClientState.Character, 0, false⟩).sentPing = true := by
  exact (client_timeout_policy 15 ⟨ClientState.Character, 0, false⟩).2
    (by norm_num [CLIENT_TIMEOUT]) rfl (by norm_num [CLIENT_TIMEOUT])

/-- C10: from every protocol state, handling `RequestState(Connected)` sets
the disconnect flag with no protocol-error reply, and the connection sweep
then removes the connection and deletes its entity. -/
theorem request_state_connected_disconnects (time : ℚ) (st : ClientState)
    (lastPing : ℚ) (hasError : Bool) (eid : Nat) (entities : List Nat) :
    (handleConnTick time [ClientMsg.RequestState ClientState.Connected]
        ⟨st, lastPing, hasError⟩).removed = true
    ∧ (handleConnTick time [ClientMsg.RequestState ClientState.Connected]
        ⟨st, lastPing, hasError⟩).errs = []
    ∧ (serverProcess time
        [(eid, ⟨st, lastPing, hasError⟩, [ClientMsg.RequestState ClientState.Connected])]
        entities).1 = []
    ∧ eid ∉ (serverProcess time
        [(eid, ⟨st, lastPing, hasError⟩, [ClientMsg.RequestState ClientState.Connected])]
        entities).2 := by
  have hmsg : ∀ acc : MsgAcc, processMsg acc (ClientMsg.RequestState ClientState.Connected)
      = { acc with disconnect := true } := by
    intro acc
    rfl
  have htick : (handleConnTick time [ClientMsg.RequestState ClientState.Connected]
      ⟨st, lastPing, hasError⟩).removed = true := by
    simp [handleConnTick, hmsg]
  refine ⟨htick, ?_, ?_, ?_⟩
  · simp [handleConnTick, hmsg]
  · simp [serverProcess, htick]
  · simp [serverProcess, htick]

/-- C1 counterexample: the entity carries `ForceUpdate`, yet the connection 5
chunks away with view distance 2 receives nothing — `sync_clients` passes the
`in_vd` predicate to `notify_ingame_if` even for forced entities, so the
distance filter still applies. -/
theorem sync_force_update_far_client_dropped :
    physicsPushes SZ32 forcedEntity [farClient] = [] := by
  norm_num [physicsPushes, pushTargets, notify_ingame_if, in_vd, chunkAxisLt,
    forcedEntity, farClient, SZ32, isInGame]

/-- C1 (amended): an entity carrying `ForceUpdate` is pushed to exactly the
in-game connections that pass the view-distance predicate — including the
connection controlling the entity itself (only the self-exclusion of the
non-forced path is lifted), and no connection failing the predicate receives
the push. -/
theorem sync_force_update_still_distance_filtered (sz : Nat × Nat × Nat)
    (e : SyncEntity) (clients : List ClientConn) (hf : e.forceUpdate = true) :
    (∀ cl ∈ clients, isInGame cl.state = true → in_vd sz e.pos cl = true →
      (cl.ceid, (⟨e.uid, e.pos, e.vel, e.ori⟩ : EntityPhysicsMsg))
        ∈ physicsPushes sz e clients)
    ∧ (∀ t ∈ pushTargets sz e clients, ∃ cl ∈ clients,
      cl.ceid = t ∧ isInGame cl.state = true ∧ in_vd sz e.pos cl = true) := by
  constructor
  · intro cl hcl hgame hvd
    have hmem : cl.ceid ∈ pushTargets sz e clients := by
      unfold pushTargets
      rw [if_pos hf]
      unfold notify_ingame_if
      exact List.mem_map_of_mem _ (List.mem_filter.mpr ⟨hcl, by simp [hgame, hvd]⟩)
    unfold physicsPushes
    exact List.mem_map_of_mem _ hmem
  · intro t ht
    unfold pushTargets at ht
    rw [if_pos hf] at ht
    unfold notify_ingame_if at ht
    obtain ⟨cl, hcl, hceid⟩ := List.mem_map.mp ht
    have hfil := List.mem_filter.mp hcl
    refine ⟨cl, hfil.1, hceid, ?_, ?_⟩
    · have := hfil.2
      simp only [Bool.and_eq_true] at this
      exact this.1
    · have := hfil.2
      simp only [Bool.and_eq_true] at this
      exact this.2

/-- Witness for the amended C1: the in-range connection — here the one
controlling the forced entity itself — receives the physics push. -/
theorem sync_force_update_still_distance_filtered_witness :
    ((0 : Nat), (⟨5, ⟨0, 0, 0⟩, { linear := ⟨0, 0, 0⟩, accel := ⟨0, 0, 0⟩ },
        ⟨0, 1, 0⟩⟩ : EntityPhysicsMsg))
      ∈ physicsPushes SZ32 forcedEntity [nearOwnClient] := by
  exact (sync_force_update_still_distance_filtered SZ32 forcedEntity [nearOwnClient] rfl).1
    nearOwnClient (by simp) rfl
    (by norm_num [in_vd, chunkAxisLt, nearOwnClient, SZ32, forcedEntity])

end Veloren
